import Mathlib

/-!
Verification of the template-matching engine of METABot-Tester.

The repository ships the template data (`output/templates/...`) and the notes
describing the template philosophy, but the matching engine itself
(`tools/template_check.py`) is not part of the checked-in sources; the
engine's behaviour is therefore modelled here from the specification
(`spec.md`), faithfully to its words, and the shipped TEB/family_1 template
is embedded literally from `src/output/templates/TEB/family_1/notes.md`.
-/

namespace MetaBot

/-- Modelled from the spec: a `MetadataRecord` is a mapping from `Group.Tag`
string keys to string values, plus a set of named integer counters computed
by the external extractor and supplied with the record. -/
structure MetadataRecord where
  fields : List (String × String)
  counters : List (String × Int)
deriving DecidableEq, Repr

/-- Modelled from the spec: a `Template` has identity `(bank, family)`, an
`expected` mapping from key to a set of acceptable exact string values, a
`ranges` mapping from counter name to inclusive integer bounds, an `ignore`
list of keys or group-prefixes, and two provenance fields (`created_at`,
`samples_count`) that are never matched against. -/
structure Template where
  bank : String
  family : String
  created_at : String
  samples_count : Nat
  expected : List (String × List String)
  ranges : List (String × Int × Int)
  ignore : List String
deriving DecidableEq, Repr

/-- Modelled from the spec: a `MatchVerdict` holds the four deviation
collections of one record/template comparison and the `is_match` boolean.
A range violation's actual value is an `Option Int`, where `none` is the
sentinel "absent" for a counter named in `ranges` but missing from the
record. -/
structure MatchVerdict where
  extra_keys : List String
  missing_keys : List String
  value_mismatches : List (String × String × List String)
  range_violations : List (String × Option Int × Int × Int)
  is_match : Bool
deriving DecidableEq, Repr

/-- Break a list of characters at the first `.`, returning the part before
and the part after, or `none` when there is no `.`. -/
def breakAtDot : List Char → Option (List Char × List Char)
  | [] => none
  | c :: cs =>
    if c = '.' then some ([], cs)
    else
      match breakAtDot cs with
      | none => none
      | some (g, t) => some (c :: g, t)

/-- Modelled from the spec: split a key into `(group, tag)` on the first
separator; a key without a separator belongs to an implicit default group. -/
def splitKey (k : String) : String × String :=
  match breakAtDot k.toList with
  | none => ("default", k)
  | some (g, t) => (String.mk g, String.mk t)

/-- Modelled from the spec: the global ignore policy of the Key Normalizer,
a set of groups and a set of bare tags to drop. -/
structure GlobalIgnore where
  groups : List String
  tags : List String
deriving DecidableEq, Repr

/-- Modelled from the spec: `normalize` drops any key whose group is in
`global_ignore.groups` or whose bare tag is in `global_ignore.tags`, alters
no surviving value, and carries the caller-supplied counters unchanged. -/
def normalize (raw : List (String × String)) (counters : List (String × Int))
    (gi : GlobalIgnore) : MetadataRecord :=
  { fields := raw.filter (fun kv =>
      ! (gi.groups.contains (splitKey kv.fst).fst
         || gi.tags.contains (splitKey kv.fst).snd)),
    counters := counters }

/-- Modelled from the spec: a template-level `ignore` entry excludes a key
when it names the key itself or the key's group. -/
def inIgnore (ignore : List String) (k : String) : Bool :=
  ignore.contains k || ignore.contains (splitKey k).fst

/-- First-binding lookup in an association list. -/
def lookupS {α : Type} (m : List (String × α)) (k : String) : Option α :=
  (m.find? (fun p => p.fst == k)).map Prod.snd

/-- Modelled from the spec: the record's meaningful fields, i.e. the fields
surviving the template-level ignore filter. -/
def meaningfulFields (r : MetadataRecord) (t : Template) : List (String × String) :=
  r.fields.filter (fun kv => ! inIgnore t.ignore kv.fst)

/-- Modelled from the spec: the template's expected entries after the same
ignore filtering (the keyset diff is taken after ignore filtering on both
sides, so that template ignore is strictly additional). -/
def meaningfulExpected (t : Template) : List (String × List String) :=
  t.expected.filter (fun kv => ! inIgnore t.ignore kv.fst)

/-- Modelled from the spec: step 2 of the Matcher — keys present in the
record's meaningful keyset but absent from the template's expected keys. -/
def extraKeysOf (r : MetadataRecord) (t : Template) : List String :=
  ((meaningfulFields r t).map Prod.fst).filter
    (fun k => ! ((meaningfulExpected t).map Prod.fst).contains k)

/-- Modelled from the spec: step 3 of the Matcher — keys present in the
template's expected keys but absent from the record. -/
def missingKeysOf (r : MetadataRecord) (t : Template) : List String :=
  ((meaningfulExpected t).map Prod.fst).filter
    (fun k => ! ((meaningfulFields r t).map Prod.fst).contains k)

/-- Modelled from the spec: step 4 of the Matcher — for a key present in
both sides, a mismatch with the actual value and the full allowed set when
the actual value is not in the allowed set. -/
def valueCheck (r : MetadataRecord) (t : Template) (kv : String × List String) :
    Option (String × String × List String) :=
  match lookupS (meaningfulFields r t) kv.fst with
  | none => none
  | some v => if kv.snd.contains v then none else some (kv.fst, v, kv.snd)

/-- Modelled from the spec: step 5 of the Matcher — the inclusive range
check of one `ranges` entry, with the "absent" sentinel (`none`) when the
counter is missing from the record. -/
def rangeCheck (r : MetadataRecord) (rg : String × Int × Int) :
    Option (String × Option Int × Int × Int) :=
  match lookupS r.counters rg.fst with
  | none => some (rg.fst, (none : Option Int), rg.snd.fst, rg.snd.snd)
  | some v =>
      if rg.snd.fst ≤ v && v ≤ rg.snd.snd then none
      else some (rg.fst, some v, rg.snd.fst, rg.snd.snd)

/-- Modelled from the spec: the Matcher. `compare` computes the keyset diff
of meaningful keys, the per-key value-set membership check, and the
per-counter inclusive range check (with the "absent" sentinel for counters
named in `ranges` but missing from the record), and sets `is_match` to the
conjunction of the four emptiness checks. All four checks always run. -/
def compare (r : MetadataRecord) (t : Template) : MatchVerdict :=
  { extra_keys := extraKeysOf r t,
    missing_keys := missingKeysOf r t,
    value_mismatches := (meaningfulExpected t).filterMap (valueCheck r t),
    range_violations := t.ranges.filterMap (rangeCheck r),
    is_match := (extraKeysOf r t).isEmpty && (missingKeysOf r t).isEmpty
      && ((meaningfulExpected t).filterMap (valueCheck r t)).isEmpty
      && (t.ranges.filterMap (rangeCheck r)).isEmpty }

/-- Total number of deviations of a verdict: the sum of the sizes of its
four collections. -/
def deviationCount (v : MatchVerdict) : Nat :=
  v.extra_keys.length + v.missing_keys.length
    + v.value_mismatches.length + v.range_violations.length

/-- Modelled from the spec: result of `classify` — the strongest candidate,
its verdict, the alternates (exact co-matches when ambiguous, closest
candidates when nothing matches), and the ambiguity flag. -/
structure ClassifyResult where
  best : Option Template
  verdict : Option MatchVerdict
  alternates : List (Template × MatchVerdict)
  ambiguous : Bool
deriving DecidableEq, Repr

/-- Lexical `(bank, family)` order on templates. -/
def tmplLE (a b : Template) : Prop :=
  a.bank < b.bank ∨ (a.bank = b.bank ∧ a.family ≤ b.family)

instance : DecidableRel tmplLE := fun a b => by
  unfold tmplLE
  exact inferInstance

/-- Lexical `(bank, family)` order lifted to scored pairs. -/
def pairLE (p q : Template × MatchVerdict) : Prop :=
  tmplLE p.fst q.fst

instance : DecidableRel pairLE := fun p q => by
  unfold pairLE
  exact inferInstance

instance : IsTrans Template tmplLE := by
  constructor
  intro a b c hab hbc
  rcases hab with h1 | ⟨e1, l1⟩
  · rcases hbc with h2 | ⟨e2, l2⟩
    · exact Or.inl (lt_trans h1 h2)
    · exact Or.inl (e2 ▸ h1)
  · rcases hbc with h2 | ⟨e2, l2⟩
    · exact Or.inl (e1 ▸ h2)
    · exact Or.inr ⟨e1.trans e2, le_trans l1 l2⟩

instance : IsTotal Template tmplLE := by
  constructor
  intro a b
  rcases lt_trichotomy a.bank b.bank with h | h | h
  · exact Or.inl (Or.inl h)
  · rcases le_total a.family b.family with hf | hf
    · exact Or.inl (Or.inr ⟨h, hf⟩)
    · exact Or.inr (Or.inr ⟨h.symm, hf⟩)
  · exact Or.inr (Or.inl h)

instance : IsTrans (Template × MatchVerdict) pairLE := by
  constructor
  intro a b c hab hbc
  exact Trans.trans (r := tmplLE) hab hbc

instance : IsTotal (Template × MatchVerdict) pairLE := by
  constructor
  intro a b
  exact IsTotal.total (r := tmplLE) a.fst b.fst

/-- Modelled from the spec: candidate templates, optionally narrowed to a
bank scope. -/
def candidatesIn (ts : List Template) (scope : Option String) : List Template :=
  match scope with
  | none => ts
  | some b => ts.filter (fun t => t.bank == b)

/-- Every candidate paired with its verdict against the record. -/
def scoredOf (r : MetadataRecord) (ts : List Template) (scope : Option String) :
    List (Template × MatchVerdict) :=
  (candidatesIn ts scope).map (fun t => (t, compare r t))

/-- The candidates whose verdict is an exact match. -/
def exactOf (r : MetadataRecord) (ts : List Template) (scope : Option String) :
    List (Template × MatchVerdict) :=
  (scoredOf r ts scope).filter (fun p => p.snd.is_match)

/-- Minimum of a list of naturals, `none` for the empty list. -/
def natListMin? : List Nat → Option Nat
  | [] => none
  | d :: ds =>
    match natListMin? ds with
    | none => some d
    | some m => some (min d m)

/-- The fewest total deviations among the scored candidates (`0` when there
are no candidates in scope). -/
def minDev (r : MetadataRecord) (ts : List Template) (scope : Option String) : Nat :=
  (natListMin? ((scoredOf r ts scope).map (fun p => deviationCount p.snd))).getD 0

/-- Modelled from the spec: the closest candidates — the scored templates
whose verdict has the fewest total deviations. -/
def closestOf (r : MetadataRecord) (ts : List Template) (scope : Option String) :
    List (Template × MatchVerdict) :=
  (scoredOf r ts scope).filter (fun p => deviationCount p.snd == minDev r ts scope)

/-- The exact matches sorted by `(bank, family)` lexical order. -/
def sortedExact (r : MetadataRecord) (ts : List Template) (scope : Option String) :
    List (Template × MatchVerdict) :=
  List.insertionSort pairLE (exactOf r ts scope)

/-- Modelled from the spec: the Family Selector. `classify` runs the Matcher
against every candidate in scope; a unique exact match is `best` with no
alternates; several exact matches are all returned as alternates sorted by
`(bank, family)` with `best` the first of them and the ambiguity flag set;
with no exact match, `best` is `none` and the closest candidates are
returned. -/
def classify (r : MetadataRecord) (ts : List Template) (scope : Option String) :
    ClassifyResult :=
  if (exactOf r ts scope).isEmpty then
    { best := none, verdict := none, alternates := closestOf r ts scope,
      ambiguous := false }
  else if (exactOf r ts scope).length == 1 then
    { best := (exactOf r ts scope).head?.map Prod.fst,
      verdict := (exactOf r ts scope).head?.map Prod.snd,
      alternates := [], ambiguous := false }
  else
    { best := (sortedExact r ts scope).head?.map Prod.fst,
      verdict := (sortedExact r ts scope).head?.map Prod.snd,
      alternates := sortedExact r ts scope, ambiguous := true }

/-- Modelled from the spec: the structural invariant checked at Template
Store load time — `expected` must map every key to a non-empty value set,
every `ranges` entry must have `min ≤ max`, and `bank`/`family` must be
non-empty. -/
def templateMalformed (t : Template) : Bool :=
  t.expected.any (fun kv => kv.snd.isEmpty)
    || t.ranges.any (fun rg => rg.snd.snd < rg.snd.fst)
    || t.bank.isEmpty || t.family.isEmpty

/-- Modelled from the spec: the Template Store load pass (the repository
ships no store implementation). Malformed templates are rejected and
excluded while loading continues; all rejections are collected together.
The result is the pair (accepted store, MalformedTemplate rejections);
duplicate-identity detection is a separate check not modelled here. -/
def load (ts : List Template) : List Template × List Template :=
  (ts.filter (fun t => ! templateMalformed t), ts.filter templateMalformed)

/-- The shipped example template, embedded literally from
`src/output/templates/TEB/family_1/notes.md`. -/
def tebFamily1 : Template :=
  { bank := "TEB", family := "family_1",
    created_at := "2026-02-07T19:08:38.778576+04:00",
    samples_count := 10,
    expected :=
      [("producer", ["OpenPDF 1.2.0"]),
       ("creator", [""]),
       ("creatortool", [""]),
       ("pdf_version", ["1.4"]),
       ("xmp_toolkit", [""]),
       ("pages", ["1"]),
       ("encrypted", ["False"]),
       ("linearized", ["False"])],
    ranges :=
      [("obj_est", 17, 17),
       ("page0_images", 2, 2),
       ("fonts_cnt", 2, 2),
       ("xobjects_cnt", 2, 2)],
    ignore :=
      ["hashes.First 1KB SHA256",
       "hashes.Last  1KB SHA256",
       "hashes.MD5",
       "hashes.SHA256",
       "system.FileAccessDate",
       "system.FileInodeChangeDate",
       "system.FileModifyDate",
       "system.FileName"] }

/-- The record of the spec's concrete scenario, carrying exactly the keys
and counters that the scenario names. -/
def claimRecord : MetadataRecord :=
  { fields := [("producer", "OpenPDF 1.2.0"), ("pages", "1"), ("encrypted", "False")],
    counters := [("obj_est", 17), ("fonts_cnt", 2)] }

/-- A record carrying every expected key of the shipped TEB/family_1
template at an accepted value and every counter named in its ranges at an
in-range value. -/
def fullRecord : MetadataRecord :=
  { fields :=
      [("producer", "OpenPDF 1.2.0"),
       ("creator", ""),
       ("creatortool", ""),
       ("pdf_version", "1.4"),
       ("xmp_toolkit", ""),
       ("pages", "1"),
       ("encrypted", "False"),
       ("linearized", "False")],
    counters :=
      [("obj_est", 17), ("page0_images", 2), ("fonts_cnt", 2), ("xobjects_cnt", 2)] }

/-- `fullRecord` with the counter `obj_est` changed to 18. -/
def fullRecord18 : MetadataRecord :=
  { fullRecord with
    counters :=
      [("obj_est", 18), ("page0_images", 2), ("fonts_cnt", 2), ("xobjects_cnt", 2)] }

/-- `claimRecord` with the counter `obj_est` changed to 18. -/
def claimRecord18 : MetadataRecord :=
  { claimRecord with counters := [("obj_est", 18), ("fonts_cnt", 2)] }

/-- A record with one counter `c = 5`, for the range-check witnesses. -/
def rangeRecord : MetadataRecord := { fields := [], counters := [("c", 5)] }

/-- A record with one counter `c = 4`, one below the range minimum. -/
def rangeRecord4 : MetadataRecord := { fields := [], counters := [("c", 4)] }

/-- A template with ranges `c ∈ [5,10]` and `d ∈ [0,3]` and nothing else. -/
def rangeTemplate : Template :=
  { bank := "B", family := "F", created_at := "", samples_count := 0,
    expected := [], ranges := [("c", 5, 10), ("d", 0, 3)], ignore := [] }

/-- A record with the single field `e = "1"`, for the ignore witness. -/
def ignRecord : MetadataRecord := { fields := [("e", "1")], counters := [] }

/-- A template expecting the single key `m`, for the ignore witness. -/
def ignTemplate : Template :=
  { bank := "B", family := "F", created_at := "", samples_count := 0,
    expected := [("m", ["1"])], ranges := [], ignore := [] }

/-- A trivial template in bank `A` that matches the empty record. -/
def tAlpha : Template :=
  { bank := "A", family := "f", created_at := "", samples_count := 0,
    expected := [], ranges := [], ignore := [] }

/-- A trivial template in bank `B` that matches the empty record. -/
def tBeta : Template :=
  { bank := "B", family := "f", created_at := "", samples_count := 0,
    expected := [], ranges := [], ignore := [] }

/-- The empty record. -/
def emptyRecord : MetadataRecord := { fields := [], counters := [] }

/-- A template one value mismatch away from `nearRecord`. -/
def tNear : Template :=
  { bank := "N", family := "f1", created_at := "", samples_count := 0,
    expected := [("k", ["1"])], ranges := [], ignore := [] }

/-- A template two deviations away from `nearRecord`. -/
def tFar : Template :=
  { bank := "N", family := "f2", created_at := "", samples_count := 0,
    expected := [("k", ["1"]), ("j", ["3"])], ranges := [], ignore := [] }

/-- A record whose key `k` mismatches `tNear`'s expected value. -/
def nearRecord : MetadataRecord := { fields := [("k", "2")], counters := [] }

/-- A record exercising all four deviation classes against `wfTemplate`. -/
def wfRecord : MetadataRecord :=
  { fields := [("x", "1"), ("e", "9")], counters := [("c", 5)] }

/-- A template against which `wfRecord` shows all four deviation classes. -/
def wfTemplate : Template :=
  { bank := "W", family := "F", created_at := "", samples_count := 0,
    expected := [("x", ["2"]), ("m", ["0"])], ranges := [("c", 0, 1), ("d", 0, 0)],
    ignore := [] }

/-- A template that `wfRecord` matches exactly. -/
def wfMatchTemplate : Template :=
  { bank := "W", family := "G", created_at := "", samples_count := 0,
    expected := [("x", ["1"]), ("e", ["9"])], ranges := [("c", 5, 5)], ignore := [] }

/-- A malformed template: empty bank, empty value set, inverted range. -/
def badTemplate : Template :=
  { bank := "", family := "F", created_at := "", samples_count := 0,
    expected := [("k", [])], ranges := [("c", 3, 1)], ignore := [] }

/-! Helper lemmas about the embedded definitions. -/

/-- The keys surviving an ignore filter are exactly the bound keys that the
ignore list does not hit. -/
theorem mem_keys_filter {α : Type} (ig : List String) (l : List (String × α)) (x : String) :
    x ∈ (l.filter (fun kv => ! inIgnore ig kv.fst)).map Prod.fst ↔
      ((∃ a, (x, a) ∈ l) ∧ inIgnore ig x = false) := by
  simp only [List.mem_map, List.mem_filter, Bool.not_eq_true']
  constructor
  · rintro ⟨⟨k, a⟩, ⟨hl, hig⟩, rfl⟩
    exact ⟨⟨a, hl⟩, hig⟩
  · rintro ⟨⟨a, hl⟩, hig⟩
    exact ⟨(x, a), ⟨hl, hig⟩, rfl⟩

/-- Growing the ignore list never un-ignores a key. -/
theorem inIgnore_mono {ig : List String} {k x : String}
    (h : inIgnore (k :: ig) x = false) : inIgnore ig x = false := by
  simp only [inIgnore, Bool.or_eq_false_iff, List.contains_cons] at h ⊢
  exact ⟨h.1.2, h.2.2⟩

/-- Membership in the extra keys of a comparison. -/
theorem mem_extraKeys (r : MetadataRecord) (t : Template) (x : String) :
    x ∈ extraKeysOf r t ↔
      (x ∈ (meaningfulFields r t).map Prod.fst ∧
        x ∉ (meaningfulExpected t).map Prod.fst) := by
  simp [extraKeysOf, List.mem_filter]

/-- Membership in the missing keys of a comparison. -/
theorem mem_missingKeys (r : MetadataRecord) (t : Template) (x : String) :
    x ∈ missingKeysOf r t ↔
      (x ∈ (meaningfulExpected t).map Prod.fst ∧
        x ∉ (meaningfulFields r t).map Prod.fst) := by
  simp [missingKeysOf, List.mem_filter]

/-- In an association list with nodup keys, a key binds at most one value. -/
theorem keys_uniq {α : Type} : ∀ {l : List (String × α)},
    (l.map Prod.fst).Nodup →
    ∀ {k : String} {a b : α}, (k, a) ∈ l → (k, b) ∈ l → a = b := by
  intro l
  induction l with
  | nil => intro _ k a b ha; cases ha
  | cons hd tl ih =>
    intro hnd k a b ha hb
    rw [List.map_cons, List.nodup_cons] at hnd
    rcases List.mem_cons.mp ha with ha | ha <;>
      rcases List.mem_cons.mp hb with hb | hb
    · have h3 : (k, a) = ((k, b) : String × α) := ha.trans hb.symm
      injection h3 with _ h4
    · exfalso
      apply hnd.1
      have : hd.fst = k := by rw [← ha]
      rw [this]
      exact List.mem_map.mpr ⟨(k, b), hb, rfl⟩
    · exfalso
      apply hnd.1
      have : hd.fst = k := by rw [← hb]
      rw [this]
      exact List.mem_map.mpr ⟨(k, a), ha, rfl⟩
    · exact ih hnd.2 ha hb

/-- A produced range violation carries the name of its `ranges` entry. -/
theorem rangeCheck_fst {r : MetadataRecord} {rg : String × Int × Int}
    {e : String × Option Int × Int × Int}
    (h : rangeCheck r rg = some e) : e.fst = rg.fst := by
  unfold rangeCheck at h
  split at h
  · cases h
    rfl
  · split at h
    · cases h
    · cases h
      rfl

/-- A produced value mismatch carries the name of its expected entry. -/
theorem valueCheck_fst {r : MetadataRecord} {t : Template} {kv : String × List String}
    {m : String × String × List String}
    (h : valueCheck r t kv = some m) : m.fst = kv.fst := by
  unfold valueCheck at h
  split at h
  · cases h
  · split at h
    · cases h
    · cases h
      rfl

/-- The malformed-template check holds exactly on the spec's three
structural violations. -/
theorem templateMalformed_iff (t : Template) :
    templateMalformed t = true ↔
      ((∃ e ∈ t.expected, e.snd = []) ∨ (∃ rg ∈ t.ranges, rg.snd.snd < rg.snd.fst)
        ∨ t.bank = "" ∨ t.family = "") := by
  simp [templateMalformed, List.any_eq_true, String.isEmpty_iff, List.isEmpty_iff,
    or_assoc]

/-! Claim theorems. -/

/-- C1: for every metadata record and template, the verdict returned by
`compare` has `is_match = true` iff all four deviation collections of the
verdict (extra keys, missing keys, value mismatches, range violations) are
empty. -/
theorem c1_is_match_iff_all_empty (r : MetadataRecord) (t : Template) :
    (compare r t).is_match = true ↔
      ((compare r t).extra_keys = [] ∧ (compare r t).missing_keys = [] ∧
        (compare r t).value_mismatches = [] ∧ (compare r t).range_violations = []) := by
  simp [compare, List.isEmpty_iff, and_assoc]

/-- C2 (counterexample): against the shipped TEB/family_1 template, the
record carrying only `producer`, `pages`, `encrypted` and the counters
`obj_est = 17`, `fonts_cnt = 2` does NOT match (five expected keys are
missing and two ranged counters are absent), and with `obj_est = 18` its
range violations are not the single entry the claim names. -/
theorem c2_counterexample :
    (compare claimRecord tebFamily1).is_match = false ∧
    (compare claimRecord18 tebFamily1).range_violations ≠
      [("obj_est", some 18, 17, 17)] := by decide

/-- C2 (amended): against the shipped TEB/family_1 template, a record
carrying every expected key at its expected value and all four counters in
range yields `is_match = true`; the same record with `obj_est` changed to
18 yields `is_match = false` with exactly one range violation, `obj_est`
mapped to `(18, 17, 17)`. -/
theorem c2_shipped_template_scenario :
    (compare fullRecord tebFamily1).is_match = true ∧
    (compare fullRecord18 tebFamily1).is_match = false ∧
    (compare fullRecord18 tebFamily1).range_violations =
      [("obj_est", some 18, 17, 17)] := by decide

/-- C9: a template fails the load-time `MalformedTemplate` check exactly
when its `expected` maps some key to an empty value set, or some `ranges`
entry has `min > max`, or its bank or family is empty; such a template is
excluded from the store, every other template keeps loading, and all
rejections are collected together in the rejection list. -/
theorem c9_malformed_template_load (ts : List Template) (t : Template) :
    (t ∈ (load ts).fst ↔ t ∈ ts ∧
      ¬ ((∃ e ∈ t.expected, e.snd = []) ∨ (∃ rg ∈ t.ranges, rg.snd.snd < rg.snd.fst)
          ∨ t.bank = "" ∨ t.family = "")) ∧
    (t ∈ (load ts).snd ↔ t ∈ ts ∧
      ((∃ e ∈ t.expected, e.snd = []) ∨ (∃ rg ∈ t.ranges, rg.snd.snd < rg.snd.fst)
        ∨ t.bank = "" ∨ t.family = "")) ∧
    (t ∈ ts → t ∈ (load ts).fst ∨ t ∈ (load ts).snd) := by
  have hm := templateMalformed_iff t
  have hm' : templateMalformed t = false ↔
      ¬ ((∃ e ∈ t.expected, e.snd = []) ∨ (∃ rg ∈ t.ranges, rg.snd.snd < rg.snd.fst)
          ∨ t.bank = "" ∨ t.family = "") := by
    rw [← hm]
    constructor
    · intro h htrue
      rw [h] at htrue
      cases htrue
    · intro h
      cases hb : templateMalformed t
      · rfl
      · exact absurd hb h
  refine ⟨?_, ?_, ?_⟩
  · simp only [load, List.mem_filter, Bool.not_eq_true']
    exact and_congr_right fun _ => hm'
  · simp only [load, List.mem_filter]
    exact and_congr_right fun _ => hm
  · intro ht
    cases hb : templateMalformed t
    · exact Or.inl (List.mem_filter.mpr ⟨ht, by rw [hb]; rfl⟩)
    · exact Or.inr (List.mem_filter.mpr ⟨ht, hb⟩)

/-- C9 (witness): loading a well-formed and a malformed template together
keeps the former in the store and collects the latter as a rejection. -/
theorem c9_malformed_template_load_witness :
    tAlpha ∈ (load [tAlpha, badTemplate]).fst ∧
    badTemplate ∈ (load [tAlpha, badTemplate]).snd := by
  constructor
  · exact (c9_malformed_template_load [tAlpha, badTemplate] tAlpha).1.mpr
      ⟨by decide, by decide⟩
  · exact (c9_malformed_template_load [tAlpha, badTemplate] badTemplate).2.1.mpr
      ⟨by decide, by decide⟩

/-- C10: `normalize` keeps exactly those raw pairs whose key's group is not
in the global ignore groups and whose bare tag is not in the global ignore
tags, each surviving pair keeping its original string value, and passes the
caller-supplied counters through unchanged. -/
theorem c10_normalize_drops_exactly (raw : List (String × String))
    (cs : List (String × Int)) (gi : GlobalIgnore) (k v : String) :
    ((k, v) ∈ (normalize raw cs gi).fields ↔
      ((k, v) ∈ raw ∧ (splitKey k).fst ∉ gi.groups ∧ (splitKey k).snd ∉ gi.tags)) ∧
    (normalize raw cs gi).counters = cs := by
  refine ⟨?_, rfl⟩
  simp [normalize, List.mem_filter, not_or]

/-- Keys of the meaningful fields are the record keys the template's ignore
list does not hit. -/
theorem mem_mf_keys (r : MetadataRecord) (t : Template) (x : String) :
    x ∈ (meaningfulFields r t).map Prod.fst ↔
      ((∃ a, (x, a) ∈ r.fields) ∧ inIgnore t.ignore x = false) :=
  mem_keys_filter t.ignore r.fields x

/-- Keys of the meaningful expected entries are the expected keys the
template's ignore list does not hit. -/
theorem mem_me_keys (t : Template) (x : String) :
    x ∈ (meaningfulExpected t).map Prod.fst ↔
      ((∃ vs, (x, vs) ∈ t.expected) ∧ inIgnore t.ignore x = false) :=
  mem_keys_filter t.ignore t.expected x

/-- C3: for a counter with inclusive bounds `(min, max)` in the template's
ranges whose value is present in the record, a value equal to `min` or to
`max` produces no range violation for that counter, while a value equal to
`min - 1` or to `max + 1` produces one. -/
theorem c3_range_inclusivity (r : MetadataRecord) (t : Template) (c : String)
    (lo hi v : Int)
    (hnd : (t.ranges.map Prod.fst).Nodup)
    (hlohi : lo ≤ hi)
    (hr : (c, lo, hi) ∈ t.ranges)
    (hv : lookupS r.counters c = some v) :
    ((v = lo ∨ v = hi) → ∀ e ∈ (compare r t).range_violations, e.fst ≠ c) ∧
    ((v = lo - 1 ∨ v = hi + 1) → ∃ e ∈ (compare r t).range_violations, e.fst = c) := by
  constructor
  · rintro hcase e he hec
    have he' : e ∈ t.ranges.filterMap (rangeCheck r) := he
    obtain ⟨⟨rf, rlo, rhi⟩, hrg, hck⟩ := List.mem_filterMap.mp he'
    have hfst : e.fst = rf := rangeCheck_fst hck
    have hrf : rf = c := by rw [← hfst]; exact hec
    subst hrf
    have hpair : ((rlo, rhi) : Int × Int) = (lo, hi) := keys_uniq hnd hrg hr
    injection hpair with hlo' hhi'
    rw [hlo', hhi'] at hck
    have hcond : (decide (lo ≤ v) && decide (v ≤ hi)) = true := by
      rcases hcase with rfl | rfl
      · simp [hlohi]
      · simp [hlohi]
    have hnone : rangeCheck r (rf, lo, hi) = none := by
      simp [rangeCheck, hv, hcond]
    rw [hnone] at hck
    cases hck
  · rintro hcase
    have hcond : (decide (lo ≤ v) && decide (v ≤ hi)) = false := by
      rcases hcase with rfl | rfl
      · have hlt : ¬ lo ≤ lo - 1 := by omega
        simp [hlt]
      · have hlt : ¬ hi + 1 ≤ hi := by omega
        simp [hlt]
    refine ⟨(c, some v, lo, hi), List.mem_filterMap.mpr ⟨(c, lo, hi), hr, ?_⟩, rfl⟩
    simp [rangeCheck, hv, hcond]

/-- C3 (witness): against ranges `c ∈ [5,10]`, the value 5 (the minimum)
triggers no violation for `c`, while the value 4 (one below) does. -/
theorem c3_range_inclusivity_witness :
    (∀ e ∈ (compare rangeRecord rangeTemplate).range_violations, e.fst ≠ "c") ∧
    (∃ e ∈ (compare rangeRecord4 rangeTemplate).range_violations, e.fst = "c") := by
  constructor
  · exact (c3_range_inclusivity rangeRecord rangeTemplate "c" 5 10 5
      (by decide) (by decide) (by decide) (by decide)).1 (Or.inl rfl)
  · exact (c3_range_inclusivity rangeRecord4 rangeTemplate "c" 5 10 4
      (by decide) (by decide) (by decide) (by decide)).2 (Or.inl (by decide))

/-- C4: every counter named in the template's ranges but absent from the
record's counters produces a range violation with the "absent" sentinel
(`none`) as actual value, and the verdict can then never be a match. -/
theorem c4_absent_counter_flagged (r : MetadataRecord) (t : Template) (c : String)
    (lo hi : Int) (hr : (c, lo, hi) ∈ t.ranges)
    (hc : lookupS r.counters c = none) :
    (c, (none : Option Int), lo, hi) ∈ (compare r t).range_violations ∧
    (compare r t).is_match = false := by
  have hmem : (c, (none : Option Int), lo, hi) ∈ t.ranges.filterMap (rangeCheck r) := by
    refine List.mem_filterMap.mpr ⟨(c, lo, hi), hr, ?_⟩
    simp [rangeCheck, hc]
  refine ⟨hmem, ?_⟩
  have hne : (t.ranges.filterMap (rangeCheck r)).isEmpty = false := by
    cases hfm : t.ranges.filterMap (rangeCheck r) with
    | nil => rw [hfm] at hmem; cases hmem
    | cons a l => rfl
  simp [compare, hne]

/-- C4 (witness): the counter `d` of `rangeTemplate` is absent from
`rangeRecord`, is flagged with the sentinel, and defeats the match. -/
theorem c4_absent_counter_flagged_witness :
    ("d", (none : Option Int), 0, 3) ∈ (compare rangeRecord rangeTemplate).range_violations ∧
    (compare rangeRecord rangeTemplate).is_match = false :=
  c4_absent_counter_flagged rangeRecord rangeTemplate "d" 0 3 (by decide) (by decide)

/-- C5: adding a key to the template's ignore list can only shrink or leave
unchanged the extra keys and the missing keys of a comparison, never grow
them. -/
theorem c5_ignore_monotone (r : MetadataRecord) (t : Template) (k : String) :
    (∀ x, x ∈ (compare r { t with ignore := k :: t.ignore }).extra_keys →
        x ∈ (compare r t).extra_keys) ∧
    (∀ x, x ∈ (compare r { t with ignore := k :: t.ignore }).missing_keys →
        x ∈ (compare r t).missing_keys) := by
  constructor
  · intro x hx
    obtain ⟨hmf', hnme'⟩ := (mem_extraKeys r _ x).mp hx
    obtain ⟨⟨a, hal⟩, hig'⟩ := (mem_mf_keys r _ x).mp hmf'
    have hig : inIgnore t.ignore x = false := inIgnore_mono hig'
    refine (mem_extraKeys r t x).mpr ⟨(mem_mf_keys r t x).mpr ⟨⟨a, hal⟩, hig⟩, ?_⟩
    intro hme
    obtain ⟨⟨vs, hvs⟩, _⟩ := (mem_me_keys t x).mp hme
    exact hnme' ((mem_me_keys { t with ignore := k :: t.ignore } x).mpr ⟨⟨vs, hvs⟩, hig'⟩)
  · intro x hx
    obtain ⟨hme', hnmf'⟩ := (mem_missingKeys r _ x).mp hx
    obtain ⟨⟨vs, hvs⟩, hig'⟩ := (mem_me_keys _ x).mp hme'
    have hig : inIgnore t.ignore x = false := inIgnore_mono hig'
    refine (mem_missingKeys r t x).mpr ⟨(mem_me_keys t x).mpr ⟨⟨vs, hvs⟩, hig⟩, ?_⟩
    intro hmf
    obtain ⟨⟨a, hal⟩, _⟩ := (mem_mf_keys r t x).mp hmf
    exact hnmf' ((mem_mf_keys r { t with ignore := k :: t.ignore } x).mpr ⟨⟨a, hal⟩, hig'⟩)

/-- C5 (witness): after adding the unrelated key `z` to the ignore list,
the surviving extra key `e` and missing key `m` were already deviations of
the original template. -/
theorem c5_ignore_monotone_witness :
    "e" ∈ (compare ignRecord ignTemplate).extra_keys ∧
    "m" ∈ (compare ignRecord ignTemplate).missing_keys := by
  constructor
  · exact (c5_ignore_monotone ignRecord ignTemplate "z").1 "e" (by decide)
  · exact (c5_ignore_monotone ignRecord ignTemplate "z").2 "m" (by decide)

/-- The list minimum is `none` exactly on the empty list. -/
theorem natListMin?_eq_none {l : List Nat} : natListMin? l = none ↔ l = [] := by
  cases l with
  | nil => simp [natListMin?]
  | cons d ds =>
    unfold natListMin?
    cases h : natListMin? ds <;> simp

/-- The list minimum is a lower bound of the list. -/
theorem natListMin?_le {l : List Nat} {m : Nat} (h : natListMin? l = some m) :
    ∀ d ∈ l, m ≤ d := by
  induction l generalizing m with
  | nil => cases h
  | cons d ds ih =>
    intro d' hd'
    unfold natListMin? at h
    split at h
    · rename_i hds
      cases h
      have hnil : ds = [] := natListMin?_eq_none.mp hds
      subst hnil
      rcases List.mem_cons.mp hd' with rfl | h0
      · exact le_refl _
      · cases h0
    · rename_i m' hds
      cases h
      rcases List.mem_cons.mp hd' with rfl | h0
      · exact min_le_left _ _
      · exact le_trans (min_le_right _ _) (ih hds _ h0)

/-- The list minimum is attained in the list. -/
theorem natListMin?_mem {l : List Nat} {m : Nat} (h : natListMin? l = some m) :
    m ∈ l := by
  induction l generalizing m with
  | nil => cases h
  | cons d ds ih =>
    unfold natListMin? at h
    split at h
    · cases h
      exact List.mem_cons_self _ _
    · rename_i m' hds
      cases h
      rcases le_total d m' with hle | hle
      · rw [min_eq_left hle]
        exact List.mem_cons_self _ _
      · rw [min_eq_right hle]
        exact List.mem_cons_of_mem _ (ih hds)

/-- The list minimum exists for a non-empty list. -/
theorem natListMin?_isSome {l : List Nat} (h : l ≠ []) :
    ∃ m, natListMin? l = some m := by
  cases hm : natListMin? l with
  | none => exact absurd (natListMin?_eq_none.mp hm) h
  | some m => exact ⟨m, rfl⟩

/-- A scored pair is a candidate together with its own verdict. -/
theorem scored_shape {r : MetadataRecord} {ts : List Template} {scope : Option String}
    {p : Template × MatchVerdict} (hp : p ∈ scoredOf r ts scope) :
    p.fst ∈ candidatesIn ts scope ∧ p.snd = compare r p.fst := by
  obtain ⟨u, hu, hup⟩ := List.mem_map.mp hp
  cases hup
  exact ⟨hu, rfl⟩

/-- Every alternate returned by `classify` comes from the scored
candidates. -/
theorem alternates_mem_scored (r : MetadataRecord) (ts : List Template)
    (scope : Option String) :
    ∀ p ∈ (classify r ts scope).alternates, p ∈ scoredOf r ts scope := by
  intro p hp
  unfold classify at hp
  split_ifs at hp
  · exact List.mem_of_mem_filter hp
  · cases hp
  · have hp' : p ∈ exactOf r ts scope := by
      have hs : p ∈ List.insertionSort pairLE (exactOf r ts scope) := hp
      rwa [List.mem_insertionSort] at hs
    exact List.mem_of_mem_filter hp'

/-- Every best template returned by `classify` comes from the candidates in
scope. -/
theorem best_mem_candidates (r : MetadataRecord) (ts : List Template)
    (scope : Option String) :
    ∀ b ∈ (classify r ts scope).best, b ∈ candidatesIn ts scope := by
  intro b hb
  unfold classify at hb
  split_ifs at hb
  · cases hb
  · rw [Option.mem_def] at hb
    obtain ⟨p, hh, hfb⟩ := Option.map_eq_some'.mp hb
    have hpmem : p ∈ exactOf r ts scope := List.mem_of_mem_head? hh
    have hps : p ∈ scoredOf r ts scope := List.mem_of_mem_filter hpmem
    rw [← hfb]
    exact (scored_shape hps).1
  · rw [Option.mem_def] at hb
    obtain ⟨p, hh, hfb⟩ := Option.map_eq_some'.mp hb
    have hpmem : p ∈ exactOf r ts scope := by
      have hs : p ∈ List.insertionSort pairLE (exactOf r ts scope) :=
        List.mem_of_mem_head? hh
      rwa [List.mem_insertionSort] at hs
    have hps : p ∈ scoredOf r ts scope := List.mem_of_mem_filter hpmem
    rw [← hfb]
    exact (scored_shape hps).1

/-- C6: whenever two or more candidate templates match exactly, `classify`
returns all exact matches as alternates, sorted by `(bank, family)` lexical
order, sets `best` to the first template in that order, and sets the
ambiguity flag. -/
theorem c6_ambiguity_reported (r : MetadataRecord) (ts : List Template)
    (scope : Option String) (h : 2 ≤ (exactOf r ts scope).length) :
    (classify r ts scope).ambiguous = true ∧
    (classify r ts scope).alternates.Perm (exactOf r ts scope) ∧
    (classify r ts scope).alternates.Sorted pairLE ∧
    (classify r ts scope).best = (classify r ts scope).alternates.head?.map Prod.fst := by
  have h1 : ¬ (exactOf r ts scope).isEmpty = true := by
    rw [List.isEmpty_iff]
    intro hnil
    rw [hnil] at h
    simp at h
  have h2 : ¬ ((exactOf r ts scope).length == 1) = true := by
    rw [beq_iff_eq]
    omega
  unfold classify
  rw [if_neg h1, if_neg h2]
  exact ⟨rfl, List.perm_insertionSort pairLE (exactOf r ts scope),
    List.sorted_insertionSort pairLE (exactOf r ts scope), rfl⟩

/-- C6 (witness): the empty record matches both trivial templates, so
classification flags ambiguity and returns both as alternates. -/
theorem c6_ambiguity_reported_witness :
    (classify emptyRecord [tBeta, tAlpha] none).ambiguous = true ∧
    (classify emptyRecord [tBeta, tAlpha] none).alternates.Perm
      (exactOf emptyRecord [tBeta, tAlpha] none) := by
  have h := c6_ambiguity_reported emptyRecord [tBeta, tAlpha] none (by decide)
  exact ⟨h.1, h.2.1⟩

/-- C7: with no exact match among a non-empty candidate set, `classify`
returns `best = none`, and its alternates are exactly the scored candidates
whose verdict has the fewest total deviations (the sum of the sizes of the
four verdict fields). -/
theorem c7_closest_fallback (r : MetadataRecord) (ts : List Template)
    (scope : Option String)
    (hex : exactOf r ts scope = [])
    (hne : scoredOf r ts scope ≠ []) :
    (classify r ts scope).best = none ∧
    (∀ p, p ∈ (classify r ts scope).alternates ↔
      (p ∈ scoredOf r ts scope ∧
        ∀ q ∈ scoredOf r ts scope, deviationCount p.snd ≤ deviationCount q.snd)) := by
  have h1 : (exactOf r ts scope).isEmpty = true := by
    rw [List.isEmpty_iff]
    exact hex
  unfold classify
  rw [if_pos h1]
  refine ⟨rfl, ?_⟩
  intro p
  have hmapne : (scoredOf r ts scope).map (fun q => deviationCount q.snd) ≠ [] := by
    intro h0
    exact hne (List.map_eq_nil_iff.mp h0)
  obtain ⟨m, hm⟩ := natListMin?_isSome hmapne
  have hmin : minDev r ts scope = m := by
    unfold minDev
    rw [hm]
    rfl
  show p ∈ closestOf r ts scope ↔ _
  unfold closestOf
  constructor
  · intro hp
    have hp' := List.mem_filter.mp hp
    have hdev : deviationCount p.snd = m := by
      have hb := hp'.2
      rw [beq_iff_eq, hmin] at hb
      exact hb
    refine ⟨hp'.1, ?_⟩
    intro q hq
    rw [hdev]
    exact natListMin?_le hm _ (List.mem_map.mpr ⟨q, hq, rfl⟩)
  · rintro ⟨hps, hmin_p⟩
    refine List.mem_filter.mpr ⟨hps, ?_⟩
    rw [beq_iff_eq, hmin]
    obtain ⟨q, hq, hqm⟩ := List.mem_map.mp (natListMin?_mem hm)
    have hle1 : deviationCount p.snd ≤ m := hqm ▸ hmin_p q hq
    have hle2 : m ≤ deviationCount p.snd :=
      natListMin?_le hm _ (List.mem_map.mpr ⟨p, hps, rfl⟩)
    exact le_antisymm hle1 hle2

/-- C7 (witness): `nearRecord` misses `tNear` by a single value mismatch
while `tFar` deviates twice, so `tNear` is the sole closest candidate with
exactly one deviation and `best` is `none`. -/
theorem c7_closest_fallback_witness :
    (classify nearRecord [tNear, tFar] none).best = none ∧
    (tNear, compare nearRecord tNear) ∈ (classify nearRecord [tNear, tFar] none).alternates ∧
    (classify nearRecord [tNear, tFar] none).alternates =
      [(tNear, compare nearRecord tNear)] ∧
    deviationCount (compare nearRecord tNear) = 1 := by
  have h := c7_closest_fallback nearRecord [tNear, tFar] none (by decide) (by decide)
  exact ⟨h.1, (h.2 (tNear, compare nearRecord tNear)).mpr ⟨by decide, by decide⟩,
    by decide, by decide⟩

/-- C8: `compare` and `classify` are total — on every input combination,
degenerate ones included, they return a well-defined result: every reported
deviation refers back to the record or the template, every alternate is a
candidate in scope paired with its own verdict, and every best template is
a candidate in scope. -/
theorem c8_total_well_defined (r : MetadataRecord) (t : Template)
    (ts : List Template) (scope : Option String) :
    (∀ k ∈ (compare r t).extra_keys, ∃ v, (k, v) ∈ r.fields) ∧
    (∀ k ∈ (compare r t).missing_keys, ∃ vs, (k, vs) ∈ t.expected) ∧
    (∀ m ∈ (compare r t).value_mismatches, ∃ vs, (m.fst, vs) ∈ t.expected) ∧
    (∀ e ∈ (compare r t).range_violations, ∃ lo hi, (e.fst, lo, hi) ∈ t.ranges) ∧
    (∀ p ∈ (classify r ts scope).alternates,
      p.fst ∈ candidatesIn ts scope ∧ p.snd = compare r p.fst) ∧
    (∀ b ∈ (classify r ts scope).best, b ∈ candidatesIn ts scope) := by
  refine ⟨?_, ?_, ?_, ?_, ?_, best_mem_candidates r ts scope⟩
  · intro k hk
    obtain ⟨hmf, _⟩ := (mem_extraKeys r t k).mp hk
    exact ((mem_mf_keys r t k).mp hmf).1
  · intro k hk
    obtain ⟨hme, _⟩ := (mem_missingKeys r t k).mp hk
    exact ((mem_me_keys t k).mp hme).1
  · intro m hm
    obtain ⟨kv, hkv, hck⟩ := List.mem_filterMap.mp hm
    have hkv' : kv ∈ t.expected := List.mem_of_mem_filter hkv
    refine ⟨kv.snd, ?_⟩
    rw [valueCheck_fst hck]
    exact hkv'
  · intro e he
    obtain ⟨rg, hrg, hck⟩ := List.mem_filterMap.mp he
    refine ⟨rg.snd.fst, rg.snd.snd, ?_⟩
    rw [rangeCheck_fst hck]
    exact hrg
  · intro p hp
    exact scored_shape (alternates_mem_scored r ts scope p hp)

/-- C8 (witness): on a record and template exhibiting all four deviation
classes, and on classifications with and without an exact match, the
returned structures all refer back to the inputs. -/
theorem c8_total_well_defined_witness :
    (∃ v, ("e", v) ∈ wfRecord.fields) ∧
    (∃ vs, ("m", vs) ∈ wfTemplate.expected) ∧
    (∃ vs, ("x", vs) ∈ wfTemplate.expected) ∧
    (∃ lo hi, ("d", lo, hi) ∈ wfTemplate.ranges) ∧
    (wfTemplate ∈ candidatesIn [wfTemplate] none ∧
      compare wfRecord wfTemplate = compare wfRecord wfTemplate) ∧
    wfMatchTemplate ∈ candidatesIn [wfMatchTemplate] none := by
  have h := c8_total_well_defined wfRecord wfTemplate [wfTemplate] none
  have h2 := c8_total_well_defined wfRecord wfMatchTemplate [wfMatchTemplate] none
  refine ⟨h.1 "e" (by decide), h.2.1 "m" (by decide),
    h.2.2.1 ("x", "1", ["2"]) (by decide),
    h.2.2.2.1 ("d", none, 0, 0) (by decide),
    h.2.2.2.2.1 (wfTemplate, compare wfRecord wfTemplate) (by decide),
    h2.2.2.2.2.2 wfMatchTemplate ?_⟩
  rw [Option.mem_def]
  decide

end MetaBot
